import Mathlib

/-!
Verification development for the feeby sketch-style React component library.

The definitions below are shallow embeddings of the repository's data model
and operations: the theme context (ThemeContext), the pure style utilities
(cn, colorUtils), the per-component jitter-seed timers, the DoodlePad stroke
state machine, and the SVG path constructions of JourneyLine, RippedBanner
and SketchyRectangle.  Randomness (Math.random) is modelled as an explicit
stream of rational draws consumed in source order; timers are modelled as an
optional tick function iterated over abstract time steps.
-/

namespace Feeby

/-! ## Theme context (ThemeContext.tsx) -/

/-- The two-valued theme flag: `type Theme = 'light' | 'dark'`. -/
inductive Theme where
  | light
  | dark
deriving DecidableEq, Repr

/-- Rendering of a theme value as the string stored in localStorage. -/
def themeToString : Theme → String
  | Theme.light => "light"
  | Theme.dark => "dark"

/-- Provider state: the context theme together with the browser-storage
mirror under the provider's storageKey (`none` = no value stored). -/
structure ThemeState where
  theme : Theme
  storage : Option String
deriving DecidableEq, Repr

/-- Mount-time load (FeebyThemeProvider's first useEffect): the stored value
is adopted only when it is exactly "light" or "dark"; otherwise the current
(default) theme is kept. -/
def mountLoad (defaultTheme : Theme) (stored : Option String) : Theme :=
  match stored with
  | some s =>
      if s = "light" then Theme.light
      else if s = "dark" then Theme.dark
      else defaultTheme
  | none => defaultTheme

/-- The provider state after mount, starting from `defaultTheme` with
`stored` in browser storage. -/
def mountState (defaultTheme : Theme) (stored : Option String) : ThemeState :=
  { theme := mountLoad defaultTheme stored, storage := stored }

/-- `setTheme`: set the context theme and write it to storage. -/
def setTheme (_s : ThemeState) (newTheme : Theme) : ThemeState :=
  { theme := newTheme, storage := some (themeToString newTheme) }

/-- `toggleTheme`: `setTheme(theme === 'light' ? 'dark' : 'light')`. -/
def toggleTheme (s : ThemeState) : ThemeState :=
  setTheme s (match s.theme with | Theme.light => Theme.dark | Theme.dark => Theme.light)

/-- The two state-changing calls the provider exposes. -/
inductive ThemeEvent where
  | set (t : Theme)
  | toggle
deriving DecidableEq, Repr

/-- One call on the provider. -/
def themeStep (s : ThemeState) : ThemeEvent → ThemeState
  | ThemeEvent.set t => setTheme s t
  | ThemeEvent.toggle => toggleTheme s

/-! ## useFeebyTheme fallback (ThemeContext.tsx lines 185-191) -/

/-- The record the hook returns: the theme plus the two state-transforming
callbacks (modelled as functions on provider state). -/
structure ThemeHook where
  theme : Theme
  setThemeF : Theme → ThemeState → ThemeState
  toggleThemeF : ThemeState → ThemeState

/-- `useFeebyTheme`: when called outside a provider the context is
undefined and a fallback of theme 'light' with no-op callbacks is
returned; otherwise the context value is returned. -/
def useFeebyTheme (ctx : Option ThemeHook) : ThemeHook :=
  match ctx with
  | none =>
      { theme := Theme.light
        setThemeF := fun _ s => s
        toggleThemeF := fun s => s }
  | some c => c

/-! ## cn class-name joiner (utils/styles.ts lines 6-8) -/

/-- One argument of `cn`: `string | undefined | false | null`. -/
inductive CnArg where
  | strv (v : String)
  | undef
  | falseLit
  | nullLit
deriving DecidableEq, Repr

/-- JavaScript truthiness of a `cn` argument (`Boolean(x)`): a string is
truthy exactly when it is nonempty; undefined/false/null are falsy. -/
def jsTruthy : CnArg → Bool
  | CnArg.strv v => decide (v ≠ "")
  | CnArg.undef => false
  | CnArg.falseLit => false
  | CnArg.nullLit => false

/-- The string payload of an argument (after `filter(Boolean)` only
nonempty strings remain, so the default is never hit by `cn`). -/
def cnArgString : CnArg → String
  | CnArg.strv v => v
  | _ => ""

/-- `Array.prototype.join(sep)` on a list of strings. -/
def jsJoin (sep : String) : List String → String
  | [] => ""
  | [a] => a
  | a :: b :: rest => a ++ sep ++ jsJoin sep (b :: rest)

/-- `cn = (...classes) => classes.filter(Boolean).join(' ')`. -/
def cn (classes : List CnArg) : String :=
  jsJoin " " ((classes.filter jsTruthy).map cnArgString)

/-- Spec-side description of `cn`: the values of the truthy arguments, in
their original order. -/
def truthyVals (classes : List CnArg) : List String :=
  classes.filterMap fun a =>
    match a with
    | CnArg.strv v => if v = "" then none else some v
    | _ => none

/-- Spec-side join: concatenation with a single space between consecutive
kept entries, empty string for no entries. -/
def spaceJoin : List String → String
  | [] => ""
  | [s] => s
  | s :: t :: rest => s ++ " " ++ spaceJoin (t :: rest)

/-! ## colorUtils (utils/styles.ts lines 80-122)

JavaScript numbers are modelled as exact rationals; `parseInt(s, 16)` on
the substrings is modelled as parsing the maximal leading run of hex
digits, with `none` standing for NaN. -/

/-- Value of a single hexadecimal digit character (0-9, a-f, A-F). -/
def hexDigitVal (c : Char) : Option ℕ :=
  if '0' ≤ c ∧ c ≤ '9' then some (c.toNat - 48)
  else if 'a' ≤ c ∧ c ≤ 'f' then some (c.toNat - 87)
  else if 'A' ≤ c ∧ c ≤ 'F' then some (c.toNat - 55)
  else none

/-- Accumulating parse of a run of hex digits, stopping at the first
non-digit (as `parseInt` does). -/
def parseIntHexAux : List Char → ℕ → ℕ
  | [], acc => acc
  | c :: rest, acc =>
      match hexDigitVal c with
      | some v => parseIntHexAux rest (acc * 16 + v)
      | none => acc

/-- `parseInt(s, 16)`: `none` (NaN) when the string does not start with a
hex digit, otherwise the value of the maximal leading digit run. -/
def parseIntHex (cs : List Char) : Option ℕ :=
  match cs with
  | [] => none
  | c :: rest =>
      match hexDigitVal c with
      | some v => some (parseIntHexAux rest v)
      | none => none

/-- `s.substring(i, j)` on a character list. -/
def jsSubstring (cs : List Char) (i j : ℕ) : List Char :=
  (cs.take j).drop i

/-- `hex.replace(/^#/, '')`: strip a single leading '#'. -/
def stripHash : List Char → List Char
  | '#' :: rest => rest
  | cs => cs

/-- The 3-digit shorthand expansion: when the (stripped) string has length
3, double each character. -/
def expand3 (cs : List Char) : List Char :=
  if cs.length = 3 then cs.flatMap (fun c => [c, c]) else cs

/-- Channel parsing shared by darken and lighten: strip '#', expand
3-digit shorthand, then parse the three 2-character substrings. -/
def parseHexColor (hex : String) : Option (ℕ × ℕ × ℕ) :=
  let cs := expand3 (stripHash hex.data)
  match parseIntHex (jsSubstring cs 0 2), parseIntHex (jsSubstring cs 2 4),
      parseIntHex (jsSubstring cs 4 6) with
  | some r, some g, some b => some (r, g, b)
  | _, _, _ => none

/-- One channel update: `Math.min(255, Math.max(0, Math.floor(c * factor)))`. -/
def scaleChannel (c : ℕ) (factor : ℚ) : ℤ :=
  min 255 (max 0 ⌊(c : ℚ) * factor⌋)

/-- `('0' + c.toString(16)).slice(-2)` for a clamped channel value. -/
def toHexByte (c : ℤ) : String :=
  let padded := '0' :: Nat.toDigits 16 c.toNat
  String.mk (padded.drop (padded.length - 2))

/-- Assemble the `#rrggbb` result string. -/
def renderHex (r g b : ℤ) : String :=
  "#" ++ toHexByte r ++ toHexByte g ++ toHexByte b

/-- `colorUtils.darken(hex, percent)`; `none` models the NaN-poisoned
result on unparseable input. -/
def darken (hex : String) (percent : ℚ) : Option String :=
  match parseHexColor hex with
  | some (r, g, b) =>
      let factor := 1 - percent / 100
      some (renderHex (scaleChannel r factor) (scaleChannel g factor)
        (scaleChannel b factor))
  | none => none

/-- `colorUtils.lighten(hex, percent)`. -/
def lighten (hex : String) (percent : ℚ) : Option String :=
  match parseHexColor hex with
  | some (r, g, b) =>
      let factor := 1 + percent / 100
      some (renderHex (scaleChannel r factor) (scaleChannel g factor)
        (scaleChannel b factor))
  | none => none

/-- A lowercase hexadecimal digit character. -/
def isLowerHexDigit (c : Char) : Bool :=
  ('0' ≤ c && c ≤ '9') || ('a' ≤ c && c ≤ 'f')

/-- Output format check: '#' followed by exactly six lowercase hex digits. -/
def isHexColorString (s : String) : Bool :=
  s.data.length = 7 && s.data.take 1 = ['#'] && (s.data.drop 1).all isLowerHexDigit

/-! ## Jitter-seed timers

Each sketchy component keeps a numeric seed in state.  A component
installs at most one fixed-period interval whose tick replaces the seed;
`none` models "no interval installed".  `seedTrace` gives the seed after
`n` elapsed timer periods. -/

/-- The guarded effect shared by the bouncy components:
`if (isBouncy) setInterval(() => setSeed(prev => prev + 1), 150)`. -/
def bouncySeedInterval (isBouncy : Bool) : Option (ℕ × (ℤ → ℤ)) :=
  if isBouncy then some (150, fun s => s + 1) else none

/-- Tape (Tape.tsx lines 26-33). -/
def tapeSeedInterval : Bool → Option (ℕ × (ℤ → ℤ)) := bouncySeedInterval

/-- SketchyRectangle (SketchyRectangle.tsx lines 36-43). -/
def sketchyRectangleSeedInterval : Bool → Option (ℕ × (ℤ → ℤ)) := bouncySeedInterval

/-- StickyNote (StickyNote.tsx lines 71-78). -/
def stickyNoteSeedInterval : Bool → Option (ℕ × (ℤ → ℤ)) := bouncySeedInterval

/-- StickyTape (StickyTape.tsx lines 50-57). -/
def stickyTapeSeedInterval : Bool → Option (ℕ × (ℤ → ℤ)) := bouncySeedInterval

/-- BinderPaper (BinderPaper.tsx lines 54-61). -/
def binderPaperSeedInterval : Bool → Option (ℕ × (ℤ → ℤ)) := bouncySeedInterval

/-- ThumbTack (BinderPaper.tsx lines 331-338). -/
def thumbTackSeedInterval : Bool → Option (ℕ × (ℤ → ℤ)) := bouncySeedInterval

/-- BulletinBoard (BulletinBoard.tsx lines 33-40). -/
def bulletinBoardSeedInterval : Bool → Option (ℕ × (ℤ → ℤ)) := bouncySeedInterval

/-- FoldedCorner (FoldedCorner.tsx lines 265-272). -/
def foldedCornerSeedInterval : Bool → Option (ℕ × (ℤ → ℤ)) := bouncySeedInterval

/-- PaperAirplane (SketchyBackground.tsx / PaperAirplane lines 108-115). -/
def paperAirplaneSeedInterval : Bool → Option (ℕ × (ℤ → ℤ)) := bouncySeedInterval

/-- PinnedNote (PinnedNote.tsx lines 58-63): the interval is installed
unconditionally; the component exposes no bouncy option. -/
def pinnedNoteSeedInterval : Option (ℕ × (ℤ → ℤ)) :=
  some (150, fun s => s + 1)

/-- RippedBanner (RippedBanner.tsx line 33): the component keeps a seed
(`useState(Math.random())`) but installs no interval for it, whatever its
isBouncy prop says. -/
def rippedBannerSeedInterval (_isBouncy : Bool) : Option (ℕ × (ℤ → ℤ)) :=
  none

/-- The seed after `n` timer periods, starting from `seed0`: with no
interval installed the seed stays put, otherwise each period applies the
tick. -/
def seedTrace (interval : Option (ℕ × (ℤ → ℤ))) (seed0 : ℤ) : ℕ → ℤ
  | 0 => seed0
  | n + 1 =>
      match interval with
      | none => seedTrace interval seed0 n
      | some (_, tick) => tick (seedTrace interval seed0 n)

/-! ## DoodlePad stroke state (DoodlePad.tsx) -/

/-- The two drawing tools. -/
inductive DrawMode where
  | pen
  | eraser
deriving DecidableEq, Repr

/-- `interface Stroke { points: [number, number][]; mode: 'pen' | 'eraser' }`. -/
structure Stroke where
  points : List (ℚ × ℚ)
  mode : DrawMode
deriving DecidableEq, Repr

/-- DoodlePad component state: isDrawing, strokes, selected tool. -/
structure PadState where
  isDrawing : Bool
  strokes : List Stroke
  mode : DrawMode
deriving DecidableEq, Repr

/-- Initial component state. -/
def initialPadState : PadState :=
  { isDrawing := false, strokes := [], mode := DrawMode.pen }

/-- `handleMouseDown`: start drawing and append a fresh one-point stroke
in the current mode. -/
def handleMouseDown (s : PadState) (pos : ℚ × ℚ) : PadState :=
  { isDrawing := true
    strokes := s.strokes ++ [{ points := [pos], mode := s.mode }]
    mode := s.mode }

/-- `handleMouseMove`: when drawing, push the event position onto the last
stroke; `none` models the TypeError thrown when the stroke list is empty
(`newStrokes[newStrokes.length - 1]` is undefined). -/
def handleMouseMove (s : PadState) (pos : ℚ × ℚ) : Option PadState :=
  if s.isDrawing = false then some s
  else
    match s.strokes.getLast? with
    | none => none
    | some lastStroke =>
        some { isDrawing := s.isDrawing
               strokes := s.strokes.dropLast ++
                 [{ points := lastStroke.points ++ [pos], mode := lastStroke.mode }]
               mode := s.mode }

/-- `handleMouseUp`: stop drawing. -/
def handleMouseUp (s : PadState) : PadState :=
  { s with isDrawing := false }

/-- `handleMouseLeave`: stop drawing. -/
def handleMouseLeave (s : PadState) : PadState :=
  { s with isDrawing := false }

/-- `handleClear`: reset the stroke list (isDrawing is left as it is). -/
def handleClear (s : PadState) : PadState :=
  { s with strokes := [] }

/-- Tool selection from the toolbar buttons. -/
def handleSetMode (s : PadState) (m : DrawMode) : PadState :=
  { s with mode := m }

/-- The user events of the pad. -/
inductive PadEvent where
  | mouseDown (pos : ℚ × ℚ)
  | mouseMove (pos : ℚ × ℚ)
  | mouseUp
  | mouseLeave
  | clear
  | setMode (m : DrawMode)
deriving DecidableEq, Repr

/-- One event step; `none` models a thrown exception. -/
def padStep (s : PadState) : PadEvent → Option PadState
  | PadEvent.mouseDown pos => some (handleMouseDown s pos)
  | PadEvent.mouseMove pos => handleMouseMove s pos
  | PadEvent.mouseUp => some (handleMouseUp s)
  | PadEvent.mouseLeave => some (handleMouseLeave s)
  | PadEvent.clear => some (handleClear s)
  | PadEvent.setMode m => some (handleSetMode s m)

/-- The state after a step, defaulting to the old state (used to state
properties without an existential). -/
def padStepD (s : PadState) (e : PadEvent) : PadState :=
  (padStep s e).getD s

/-- The DoodlePad invariant: every recorded stroke has a nonempty point
list, and while drawing the stroke list is nonempty.  (Stroke modes lie in
pen/eraser by the type `DrawMode`.) -/
abbrev PadInv (s : PadState) : Prop :=
  (∀ st ∈ s.strokes, st.points ≠ []) ∧ (s.isDrawing = true → s.strokes ≠ [])

/-- Placeholder stroke for stating getLast-based properties. -/
def noStroke : Stroke :=
  { points := [], mode := DrawMode.pen }

/-- The state after a mouse-down at the origin on a fresh pad. -/
def padS1 : PadState :=
  handleMouseDown initialPadState (0, 0)

/-- The state after clearing while still drawing. -/
def padS2 : PadState :=
  handleClear padS1

/-! ## JourneyLine (JourneyLine.tsx) -/

/-- `type Point = { x: number; y: number }`. -/
structure Point where
  x : ℚ
  y : ℚ
deriving DecidableEq, Repr

/-- A primitive of the constructed path string: the initial `M` move or a
`C` cubic bezier segment. -/
inductive PathCmd where
  | move (p : Point)
  | cubic (c1 c2 endp : Point)
deriving DecidableEq, Repr

/-- Loop body for segment `i ≥ 1` (JourneyLine.tsx lines 40-61).  The
three `Math.random()` draws of iteration `i` are `rand (3*(i-1))`,
`rand (3*(i-1)+1)`, `rand (3*(i-1)+2)`, in source order. -/
def journeySegment (pts : List Point) (rand : ℕ → ℚ) (i : ℕ) : PathCmd :=
  let start := pts.getD (i - 1) ⟨0, 0⟩
  let endp := pts.getD i ⟨0, 0⟩
  let dx := endp.x - start.x
  let dy := endp.y - start.y
  let direction : ℚ := if i % 2 = 0 then 1 else -1
  let base := 3 * (i - 1)
  let verticalRandomness :=
    if i = 1 then rand base * 100 + 50 else (rand base - 1/2) * 200
  let ctrlX1 := start.x + dx * (1/4) + direction * (rand (base + 1) * 200 + 150)
  let ctrlY1 := start.y + dy * (1/2) + verticalRandomness
  let ctrlX2 := endp.x - dx * (1/4) - direction * (rand (base + 2) * 200 + 150)
  let ctrlY2 := endp.y - dy * (1/2) - verticalRandomness
  PathCmd.cubic ⟨ctrlX1, ctrlY1⟩ ⟨ctrlX2, ctrlY2⟩ endp

/-- The whole path: `M points[0]` then one `C` segment per further point. -/
def journeyPath (pts : List Point) (rand : ℕ → ℚ) : List PathCmd :=
  PathCmd.move (pts.getD 0 ⟨0, 0⟩) ::
    (List.range (pts.length - 1)).map (fun j => journeySegment pts rand (j + 1))

/-- The effect body: the path is built and handed to the renderer only
when `points.length > 1`; otherwise nothing is drawn and the SVG children
are left alone (`none`). -/
def renderJourney (pts : List Point) (rand : ℕ → ℚ) : Option (List PathCmd) :=
  if 1 < pts.length then some (journeyPath pts rand) else none

/-- End point of a cubic command, if that is what the argument is. -/
def cubicEndOf : Option PathCmd → Option Point
  | some (PathCmd.cubic _ _ e) => some e
  | _ => none

/-! ## RippedBanner torn-edge outline (RippedBanner.tsx lines 44-72) -/

/-- One jitter offset: `(Math.random() - 0.5) * jaggedness` with
jaggedness = 8. -/
def jagOffset (r : ℚ) : ℚ :=
  (r - 1/2) * 8

/-- `jaggedLine(x1, y1, x2, y2)` as the list of its six generated
vertices (segmentCount = 6); vertex `i` consumes draws `base + 2*(i-1)`
(x) and `base + 2*(i-1) + 1` (y), in source order. -/
def sidePoints (x1 y1 x2 y2 : ℚ) (rand : ℕ → ℚ) (base : ℕ) : List (ℚ × ℚ) :=
  let dx := (x2 - x1) / 6
  let dy := (y2 - y1) / 6
  let p : ℕ → ℚ × ℚ := fun i =>
    (x1 + dx * i + jagOffset (rand (base + 2 * (i - 1))),
     y1 + dy * i + jagOffset (rand (base + 2 * (i - 1) + 1)))
  [p 1, p 2, p 3, p 4, p 5, p 6]

/-- The jittered `M` starting point (draws 0 and 1). -/
def rippedStart (rand : ℕ → ℚ) : ℚ × ℚ :=
  (jagOffset (rand 0), jagOffset (rand 1))

/-- The four sides of the banner outline, in path order; side `k` starts
its draws at index `2 + 12*k`. -/
def rippedSides (w h : ℚ) (rand : ℕ → ℚ) : List (List (ℚ × ℚ)) :=
  [ sidePoints 0 0 w 0 rand 2,
    sidePoints w 0 w h rand 14,
    sidePoints w h 0 h rand 26,
    sidePoints 0 h 0 0 rand 38 ]

/-- The corresponding point on the ideal w-by-h rectangle boundary for the
vertex at (0-based) position `j` of side `k`. -/
def idealSideVertex (w h : ℚ) (k j : ℕ) : ℚ × ℚ :=
  match k with
  | 0 => (w * (j + 1) / 6, 0)
  | 1 => (w, h * (j + 1) / 6)
  | 2 => (w - w * (j + 1) / 6, h)
  | 3 => (0, h - h * (j + 1) / 6)
  | _ => (0, 0)

/-- A concrete random stream (every draw 1/2) used to instantiate the
random-dependent statements. -/
def halfDraws : ℕ → ℚ := fun _ => 1/2

/-- Concrete three-point input for JourneyLine. -/
def ptsThree : List Point := [⟨0, 0⟩, ⟨10, 5⟩, ⟨20, 0⟩]

/-- Concrete one-point input for JourneyLine. -/
def ptsOne : List Point := [⟨1, 1⟩]

/-! ## SketchyRectangle rounded-rectangle path (SketchyRectangle.tsx lines 45-71) -/

/-- A primitive of the rounded-rectangle path string. -/
inductive RectCmd where
  | move (p : ℚ × ℚ)
  | line (p : ℚ × ℚ)
  | arc (rx ry : ℚ) (p : ℚ × ℚ)
  | close
deriving DecidableEq, Repr

/-- The path of SketchyRectangle, with the radius clamp
`r = Math.min(borderRadius, width / 2, height / 2)`. -/
def sketchyRectanglePath (width height borderRadius strokeWidth : ℚ) : List RectCmd :=
  let r := min borderRadius (min (width / 2) (height / 2))
  let x := strokeWidth / 2
  let y := strokeWidth / 2
  let w := width - strokeWidth
  let h := height - strokeWidth
  [ RectCmd.move (x + r, y),
    RectCmd.line (x + w - r, y),
    RectCmd.arc r r (x + w, y + r),
    RectCmd.line (x + w, y + h - r),
    RectCmd.arc r r (x + w - r, y + h),
    RectCmd.line (x + r, y + h),
    RectCmd.arc r r (x, y + h - r),
    RectCmd.line (x, y + r),
    RectCmd.arc r r (x + r, y),
    RectCmd.close ]

/-- The arc radii actually used in a path, in order. -/
def arcRadii (cmds : List RectCmd) : List ℚ :=
  cmds.filterMap fun c =>
    match c with
    | RectCmd.arc rx _ _ => some rx
    | _ => none

theorem filter_truthy_map_eq_truthyVals (classes : List CnArg) :
    (classes.filter jsTruthy).map cnArgString = truthyVals classes := by
  induction classes with
  | nil => rfl
  | cons a rest ih =>
      cases a with
      | strv v =>
          by_cases hv : v = "" <;>
            simp [List.filter, truthyVals, jsTruthy, hv, cnArgString, List.filterMap] at ih ⊢ <;>
            simpa [truthyVals] using ih
      | undef => simpa [List.filter, truthyVals, jsTruthy] using ih
      | falseLit => simpa [List.filter, truthyVals, jsTruthy] using ih
      | nullLit => simpa [List.filter, truthyVals, jsTruthy] using ih

theorem jsJoin_space_eq_spaceJoin (l : List String) :
    jsJoin " " l = spaceJoin l := by
  induction l with
  | nil => rfl
  | cons a t ih =>
      cases t with
      | nil => rfl
      | cons b r =>
          simp only [jsJoin, spaceJoin]
          rw [ih]

/-- C2: the theme flag always holds 'light' or 'dark'; after every
setTheme or toggleTheme call the value stored under the storageKey equals
the current context theme; on mount a stored value is adopted only when it
is exactly "light" or "dark", and otherwise the defaultTheme is kept. -/
theorem theme_sync_and_mount (s : ThemeState) (e : ThemeEvent) (dt : Theme)
    (st : Option String) (h1 : st ≠ some "light") (h2 : st ≠ some "dark") :
    ((themeStep s e).theme = Theme.light ∨ (themeStep s e).theme = Theme.dark) ∧
    (themeStep s e).storage = some (themeToString (themeStep s e).theme) ∧
    mountLoad dt (some "light") = Theme.light ∧
    mountLoad dt (some "dark") = Theme.dark ∧
    mountLoad dt st = dt := by
  refine ⟨?_, ?_, by simp [mountLoad], by simp [mountLoad], ?_⟩
  · cases e with
    | set t => cases t <;> simp [themeStep, setTheme]
    | toggle => cases h : s.theme <;> simp [themeStep, toggleTheme, setTheme, h]
  · cases e with
    | set t => rfl
    | toggle => cases h : s.theme <;> simp [themeStep, toggleTheme, setTheme, h]
  · cases st with
    | none => rfl
    | some v =>
        have hv1 : v ≠ "light" := by intro hv; exact h1 (by rw [hv])
        have hv2 : v ≠ "dark" := by intro hv; exact h2 (by rw [hv])
        simp [mountLoad, hv1, hv2]

theorem theme_sync_and_mount_witness :
    ((themeStep ⟨Theme.light, none⟩ ThemeEvent.toggle).theme = Theme.light ∨
      (themeStep ⟨Theme.light, none⟩ ThemeEvent.toggle).theme = Theme.dark) ∧
    (themeStep ⟨Theme.light, none⟩ ThemeEvent.toggle).storage =
      some (themeToString (themeStep ⟨Theme.light, none⟩ ThemeEvent.toggle).theme) ∧
    mountLoad Theme.dark (some "light") = Theme.light ∧
    mountLoad Theme.dark (some "dark") = Theme.dark ∧
    mountLoad Theme.dark (some "blue") = Theme.dark :=
  theme_sync_and_mount ⟨Theme.light, none⟩ ThemeEvent.toggle Theme.dark (some "blue")
    (by decide) (by decide)

/-- C8: useFeebyTheme outside any provider returns theme 'light' together
with setTheme and toggleTheme callbacks that change no state. -/
theorem useFeebyTheme_fallback (t : Theme) (s : ThemeState) :
    (useFeebyTheme none).theme = Theme.light ∧
    (useFeebyTheme none).setThemeF t s = s ∧
    (useFeebyTheme none).toggleThemeF s = s :=
  ⟨rfl, rfl, rfl⟩

/-- C7: cn returns exactly the truthy arguments, in order, joined by a
single space (empty string when nothing is truthy); falsy arguments
(undefined, false, null, and the empty string) are dropped. -/
theorem cn_spec (args : List CnArg) :
    cn args = spaceJoin (truthyVals args) ∧
    cn [] = "" ∧
    cn (CnArg.undef :: args) = cn args ∧
    cn (CnArg.falseLit :: args) = cn args ∧
    cn (CnArg.nullLit :: args) = cn args ∧
    cn (CnArg.strv "" :: args) = cn args := by
  refine ⟨?_, rfl, ?_, ?_, ?_, ?_⟩
  · rw [cn, filter_truthy_map_eq_truthyVals, jsJoin_space_eq_spaceJoin]
  · simp [cn, List.filter, jsTruthy]
  · simp [cn, List.filter, jsTruthy]
  · simp [cn, List.filter, jsTruthy]
  · simp [cn, List.filter, jsTruthy]

/-- C4: a mouse-down appends exactly one new one-point stroke in the
current tool mode at the end of the list, leaving the previously recorded
strokes unchanged, and clear resets the list to empty. -/
theorem doodlePad_mouseDown_clear (s : PadState) (pos : ℚ × ℚ) :
    padStep s (PadEvent.mouseDown pos) =
      some { isDrawing := true
             strokes := s.strokes ++ [{ points := [pos], mode := s.mode }]
             mode := s.mode } ∧
    (handleMouseDown s pos).strokes.take s.strokes.length = s.strokes ∧
    (handleMouseDown s pos).strokes.length = s.strokes.length + 1 ∧
    (handleMouseDown s pos).strokes.getLast? =
      some { points := [pos], mode := s.mode } ∧
    padStep s PadEvent.clear = some { s with strokes := [] } := by
  refine ⟨rfl, ?_, ?_, ?_, rfl⟩
  · simp [handleMouseDown]
  · simp [handleMouseDown]
  · simp [handleMouseDown]

/-- C10: the corner radius actually used by SketchyRectangle's path is
min(borderRadius, width / 2, height / 2) on all four arcs, so the
requested borderRadius is honored exactly iff it is at most half of each
dimension. -/
theorem sketchyRectangle_radius_clamp (width height borderRadius strokeWidth : ℚ) :
    arcRadii (sketchyRectanglePath width height borderRadius strokeWidth) =
      [min borderRadius (min (width / 2) (height / 2)),
       min borderRadius (min (width / 2) (height / 2)),
       min borderRadius (min (width / 2) (height / 2)),
       min borderRadius (min (width / 2) (height / 2))] ∧
    (min borderRadius (min (width / 2) (height / 2)) = borderRadius ↔
      borderRadius ≤ width / 2 ∧ borderRadius ≤ height / 2) := by
  constructor
  · rfl
  · rw [min_eq_left_iff, le_min_iff]

/-- C1 counterexample: PinnedNote holds a jitter seed and exposes no
bouncy option, yet its fixed 150ms interval is installed unconditionally
and the first tick changes the seed away from its initial value. -/
theorem pinnedNote_seed_regenerates_without_bouncy :
    pinnedNoteSeedInterval.isSome = true ∧
    seedTrace pinnedNoteSeedInterval 0 1 ≠ seedTrace pinnedNoteSeedInterval 0 0 := by
  exact ⟨rfl, by decide⟩

theorem seedTrace_none (seed0 : ℤ) (n : ℕ) :
    seedTrace none seed0 n = seed0 := by
  induction n with
  | zero => rfl
  | succ n ih => simpa [seedTrace] using ih

theorem bouncyTrace_spec (seed0 : ℤ) (n : ℕ) :
    seedTrace (bouncySeedInterval false) seed0 n = seed0 ∧
    seedTrace (bouncySeedInterval true) seed0 (n + 1) ≠
      seedTrace (bouncySeedInterval true) seed0 n := by
  constructor
  · simpa [bouncySeedInterval] using seedTrace_none seed0 n
  · have h : seedTrace (bouncySeedInterval true) seed0 (n + 1) =
        seedTrace (bouncySeedInterval true) seed0 n + 1 := rfl
    rw [h]
    omega

/-- C1 (amended): every component whose seed interval is guarded by
isBouncy (Tape, SketchyRectangle, StickyNote, StickyTape, BinderPaper,
ThumbTack, BulletinBoard, FoldedCorner, PaperAirplane) runs no timer and
keeps its initial seed under isBouncy = false, and changes the seed on
every tick under isBouncy = true; PinnedNote, which exposes no bouncy
option, regenerates its seed on every tick unconditionally; and
RippedBanner's own seed never changes whatever its isBouncy prop. -/
theorem seed_interval_spec (seed0 : ℤ) (n : ℕ) (b : Bool) :
    seedTrace (tapeSeedInterval false) seed0 n = seed0 ∧
    seedTrace (tapeSeedInterval true) seed0 (n + 1) ≠
      seedTrace (tapeSeedInterval true) seed0 n ∧
    seedTrace (sketchyRectangleSeedInterval false) seed0 n = seed0 ∧
    seedTrace (sketchyRectangleSeedInterval true) seed0 (n + 1) ≠
      seedTrace (sketchyRectangleSeedInterval true) seed0 n ∧
    seedTrace (stickyNoteSeedInterval false) seed0 n = seed0 ∧
    seedTrace (stickyNoteSeedInterval true) seed0 (n + 1) ≠
      seedTrace (stickyNoteSeedInterval true) seed0 n ∧
    seedTrace (stickyTapeSeedInterval false) seed0 n = seed0 ∧
    seedTrace (stickyTapeSeedInterval true) seed0 (n + 1) ≠
      seedTrace (stickyTapeSeedInterval true) seed0 n ∧
    seedTrace (binderPaperSeedInterval false) seed0 n = seed0 ∧
    seedTrace (binderPaperSeedInterval true) seed0 (n + 1) ≠
      seedTrace (binderPaperSeedInterval true) seed0 n ∧
    seedTrace (thumbTackSeedInterval false) seed0 n = seed0 ∧
    seedTrace (thumbTackSeedInterval true) seed0 (n + 1) ≠
      seedTrace (thumbTackSeedInterval true) seed0 n ∧
    seedTrace (bulletinBoardSeedInterval false) seed0 n = seed0 ∧
    seedTrace (bulletinBoardSeedInterval true) seed0 (n + 1) ≠
      seedTrace (bulletinBoardSeedInterval true) seed0 n ∧
    seedTrace (foldedCornerSeedInterval false) seed0 n = seed0 ∧
    seedTrace (foldedCornerSeedInterval true) seed0 (n + 1) ≠
      seedTrace (foldedCornerSeedInterval true) seed0 n ∧
    seedTrace (paperAirplaneSeedInterval false) seed0 n = seed0 ∧
    seedTrace (paperAirplaneSeedInterval true) seed0 (n + 1) ≠
      seedTrace (paperAirplaneSeedInterval true) seed0 n ∧
    seedTrace pinnedNoteSeedInterval seed0 (n + 1) ≠
      seedTrace pinnedNoteSeedInterval seed0 n ∧
    seedTrace (rippedBannerSeedInterval b) seed0 n = seed0 := by
  have hb := bouncyTrace_spec seed0 n
  have hpin : seedTrace pinnedNoteSeedInterval seed0 (n + 1) =
      seedTrace pinnedNoteSeedInterval seed0 n + 1 := rfl
  refine ⟨hb.1, hb.2, hb.1, hb.2, hb.1, hb.2, hb.1, hb.2, hb.1, hb.2, hb.1, hb.2,
    hb.1, hb.2, hb.1, hb.2, hb.1, hb.2, ?_, seedTrace_none seed0 n⟩
  rw [hpin]
  omega

theorem mouseMove_drawing (s : PadState) (pos : ℚ × ℚ) (hd : s.isDrawing = true)
    (hne : s.strokes ≠ []) :
    handleMouseMove s pos =
      some { isDrawing := s.isDrawing
             strokes := s.strokes.dropLast ++
               [{ points := (s.strokes.getLast hne).points ++ [pos]
                  mode := (s.strokes.getLast hne).mode }]
             mode := s.mode } := by
  rw [handleMouseMove, List.getLast?_eq_getLast _ hne]
  simp [hd]

/-- C9 counterexample: from the reachable state right after a mouse-down
(isDrawing true, one stroke) the clear event leaves isDrawing true with an
empty stroke list, so the claimed invariant is not preserved by clear, and
the next mouse-move while drawing fails instead of appending. -/
theorem doodlePad_clear_breaks_invariant :
    PadInv padS1 ∧
    padStep padS1 PadEvent.clear = some padS2 ∧
    padS2.isDrawing = true ∧
    padS2.strokes = [] ∧
    ¬ PadInv padS2 ∧
    padStep padS2 (PadEvent.mouseMove (1, 1)) = none := by
  refine ⟨by decide, rfl, rfl, rfl, by decide, rfl⟩

/-- C9 (amended): the invariant (every stroke nonempty, and a nonempty
stroke list while drawing) is preserved by mouse-down, mouse-move,
mouse-up, mouse-leave and tool selection, and by clear when not drawing;
under the invariant a mouse-move while drawing succeeds and appends its
point to the last stroke, leaving the earlier strokes and the stroke's
mode unchanged.  Clear while drawing is the one event that breaks it. -/
theorem doodlePad_inv_preserved (s : PadState) (e : PadEvent) (q : ℚ × ℚ)
    (hinv : PadInv s) (hne : e ≠ PadEvent.clear) :
    padStep s e ≠ none ∧
    PadInv (padStepD s e) ∧
    (s.isDrawing = false → PadInv (padStepD s PadEvent.clear)) ∧
    (s.isDrawing = true →
      (padStepD s (PadEvent.mouseMove q)).strokes.dropLast = s.strokes.dropLast ∧
      ((padStepD s (PadEvent.mouseMove q)).strokes.getLastD noStroke).points =
        (s.strokes.getLastD noStroke).points ++ [q] ∧
      ((padStepD s (PadEvent.mouseMove q)).strokes.getLastD noStroke).mode =
        (s.strokes.getLastD noStroke).mode) := by
  obtain ⟨hpts, hdrw⟩ := hinv
  have hmove : ∀ pos : ℚ × ℚ, handleMouseMove s pos ≠ none ∧
      PadInv ((handleMouseMove s pos).getD s) := by
    intro pos
    by_cases hd : s.isDrawing = true
    · have hne2 : s.strokes ≠ [] := hdrw hd
      rw [mouseMove_drawing s pos hd hne2]
      refine ⟨by simp, ?_, by simp⟩
      intro st hst
      simp only [Option.getD_some] at hst
      rcases List.mem_append.mp hst with h | h
      · exact hpts st ((List.dropLast_sublist _).subset h)
      · simp only [List.mem_singleton] at h
        subst h
        simp
    · have hd2 : s.isDrawing = false := by
        revert hd; cases s.isDrawing <;> simp
      simp only [handleMouseMove, hd2, if_pos rfl]
      exact ⟨by simp, hpts, hdrw⟩
  refine ⟨?_, ?_, ?_, ?_⟩
  · cases e with
    | mouseDown pos => simp [padStep]
    | mouseMove pos => exact (hmove pos).1
    | mouseUp => simp [padStep]
    | mouseLeave => simp [padStep]
    | clear => simp [padStep]
    | setMode m => simp [padStep]
  · cases e with
    | mouseDown pos =>
        refine ⟨?_, by simp [padStepD, padStep, handleMouseDown]⟩
        intro st hst
        simp only [padStepD, padStep, Option.getD_some, handleMouseDown] at hst
        rcases List.mem_append.mp hst with h | h
        · exact hpts st h
        · simp only [List.mem_singleton] at h
          subst h
          simp
    | mouseMove pos => exact (hmove pos).2
    | mouseUp => exact ⟨hpts, by simp [padStepD, padStep, handleMouseUp]⟩
    | mouseLeave => exact ⟨hpts, by simp [padStepD, padStep, handleMouseLeave]⟩
    | clear => exact absurd rfl hne
    | setMode m => exact ⟨hpts, fun h => hdrw h⟩
  · intro h
    refine ⟨by simp [padStepD, padStep, handleClear], ?_⟩
    intro hdr
    simp only [padStepD, padStep, Option.getD_some, handleClear] at hdr
    rw [h] at hdr
    exact absurd hdr (by simp)
  · intro hd
    have hne2 : s.strokes ≠ [] := hdrw hd
    have hlast : s.strokes.getLastD noStroke = s.strokes.getLast hne2 := by
      rw [List.getLastD_eq_getLast?, List.getLast?_eq_getLast _ hne2]
      rfl
    simp only [padStepD, padStep, mouseMove_drawing s q hd hne2, Option.getD_some]
    refine ⟨?_, ?_, ?_⟩
    · rw [List.dropLast_concat]
    · rw [List.getLastD_concat, hlast]
    · rw [List.getLastD_concat, hlast]

theorem doodlePad_inv_preserved_witness :
    padStep padS1 (PadEvent.mouseMove (2, 3)) ≠ none ∧
    PadInv (padStepD padS1 (PadEvent.mouseMove (2, 3))) ∧
    (padS1.isDrawing = false → PadInv (padStepD padS1 PadEvent.clear)) ∧
    (padS1.isDrawing = true →
      (padStepD padS1 (PadEvent.mouseMove (2, 3))).strokes.dropLast =
        padS1.strokes.dropLast ∧
      ((padStepD padS1 (PadEvent.mouseMove (2, 3))).strokes.getLastD noStroke).points =
        (padS1.strokes.getLastD noStroke).points ++ [(2, 3)] ∧
      ((padStepD padS1 (PadEvent.mouseMove (2, 3))).strokes.getLastD noStroke).mode =
        (padS1.strokes.getLastD noStroke).mode) :=
  doodlePad_inv_preserved padS1 (PadEvent.mouseMove (2, 3)) (2, 3)
    (by decide) (by decide)

/-- C5: for two or more input points the constructed path is the initial
move to points[0] followed by exactly n-1 cubic segments, segment i ending
exactly at points[i]; with fewer than two points nothing is handed to the
renderer. -/
theorem journeyLine_spec (pts qs : List Point) (rand : ℕ → ℚ) (i : ℕ)
    (hi : i + 1 < pts.length) (hq : qs.length < 2) :
    renderJourney pts rand = some (journeyPath pts rand) ∧
    (journeyPath pts rand).length = pts.length ∧
    (journeyPath pts rand)[0]? = some (PathCmd.move (pts.getD 0 ⟨0, 0⟩)) ∧
    cubicEndOf ((journeyPath pts rand)[i + 1]?) = some (pts.getD (i + 1) ⟨0, 0⟩) ∧
    renderJourney qs rand = none := by
  have hlen : 1 < pts.length := by omega
  refine ⟨?_, ?_, ?_, ?_, ?_⟩
  · simp [renderJourney, hlen]
  · simp only [journeyPath, List.length_cons, List.length_map, List.length_range]
    omega
  · simp [journeyPath]
  · have hi2 : i < pts.length - 1 := by omega
    simp only [journeyPath, List.getElem?_cons_succ]
    rw [List.getElem?_map, List.getElem?_range hi2]
    rfl
  · have hq2 : ¬ (1 < qs.length) := by omega
    simp [renderJourney, hq2]

theorem journeyLine_spec_witness :
    renderJourney ptsThree halfDraws = some (journeyPath ptsThree halfDraws) ∧
    (journeyPath ptsThree halfDraws).length = ptsThree.length ∧
    (journeyPath ptsThree halfDraws)[0]? =
      some (PathCmd.move (ptsThree.getD 0 ⟨0, 0⟩)) ∧
    cubicEndOf ((journeyPath ptsThree halfDraws)[2]?) =
      some (ptsThree.getD 2 ⟨0, 0⟩) ∧
    renderJourney ptsOne halfDraws = none :=
  journeyLine_spec ptsThree ptsOne halfDraws 1 (by decide) (by decide)

theorem abs_jagOffset (r : ℚ) (h0 : 0 ≤ r) (h1 : r < 1) : |jagOffset r| ≤ 4 := by
  rw [jagOffset, abs_le]
  constructor <;> linarith

theorem jag_close (A B r : ℚ) (h0 : 0 ≤ r) (h1 : r < 1) (hAB : A = B) :
    |A + jagOffset r - B| ≤ 4 := by
  have h := abs_jagOffset r h0 h1
  have e : A + jagOffset r - B = jagOffset r := by rw [hAB]; ring
  rwa [e]

theorem sidePoints_getD_close (x1 y1 x2 y2 : ℚ) (rand : ℕ → ℚ)
    (hr : ∀ n, 0 ≤ rand n ∧ rand n < 1) (base j : ℕ) (hj : j < 6) :
    |((sidePoints x1 y1 x2 y2 rand base).getD j (0, 0)).1 -
      (x1 + (x2 - x1) / 6 * (j + 1))| ≤ 4 ∧
    |((sidePoints x1 y1 x2 y2 rand base).getD j (0, 0)).2 -
      (y1 + (y2 - y1) / 6 * (j + 1))| ≤ 4 := by
  interval_cases j <;>
    exact ⟨jag_close _ _ _ (hr _).1 (hr _).2 (by push_cast; ring),
      jag_close _ _ _ (hr _).1 (hr _).2 (by push_cast; ring)⟩

/-- C6: the RippedBanner outline is four sides of exactly six line
segments each, and every generated vertex (the starting M point included)
deviates from the corresponding point of the ideal w-by-h rectangle
boundary by at most 4 (half the jaggedness constant 8) in each
coordinate, whenever the random draws lie in [0, 1). -/
theorem rippedBanner_outline (w h : ℚ) (rand : ℕ → ℚ)
    (hr : ∀ n, 0 ≤ rand n ∧ rand n < 1) (k j : ℕ) (hk : k < 4) (hj : j < 6) :
    (rippedSides w h rand).length = 4 ∧
    ((rippedSides w h rand).getD k []).length = 6 ∧
    |(((rippedSides w h rand).getD k []).getD j (0, 0)).1 -
      (idealSideVertex w h k j).1| ≤ 4 ∧
    |(((rippedSides w h rand).getD k []).getD j (0, 0)).2 -
      (idealSideVertex w h k j).2| ≤ 4 ∧
    |(rippedStart rand).1 - 0| ≤ 4 ∧
    |(rippedStart rand).2 - 0| ≤ 4 := by
  refine ⟨rfl, ?_, ?_, ?_, ?_, ?_⟩
  · interval_cases k <;> rfl
  · interval_cases k
    · have hs := (sidePoints_getD_close 0 0 w 0 rand hr 2 j hj).1
      rw [show (0 : ℚ) + (w - 0) / 6 * (j + 1) = w * (j + 1) / 6 from by ring] at hs
      exact hs
    · have hs := (sidePoints_getD_close w 0 w h rand hr 14 j hj).1
      rw [show w + (w - w) / 6 * ((j : ℚ) + 1) = w from by ring] at hs
      exact hs
    · have hs := (sidePoints_getD_close w h 0 h rand hr 26 j hj).1
      rw [show w + ((0 : ℚ) - w) / 6 * (j + 1) = w - w * (j + 1) / 6 from by ring] at hs
      exact hs
    · have hs := (sidePoints_getD_close 0 h 0 0 rand hr 38 j hj).1
      rw [show (0 : ℚ) + ((0 : ℚ) - 0) / 6 * (j + 1) = 0 from by ring] at hs
      exact hs
  · interval_cases k
    · have hs := (sidePoints_getD_close 0 0 w 0 rand hr 2 j hj).2
      rw [show (0 : ℚ) + ((0 : ℚ) - 0) / 6 * (j + 1) = 0 from by ring] at hs
      exact hs
    · have hs := (sidePoints_getD_close w 0 w h rand hr 14 j hj).2
      rw [show (0 : ℚ) + (h - 0) / 6 * (j + 1) = h * (j + 1) / 6 from by ring] at hs
      exact hs
    · have hs := (sidePoints_getD_close w h 0 h rand hr 26 j hj).2
      rw [show h + (h - h) / 6 * ((j : ℚ) + 1) = h from by ring] at hs
      exact hs
    · have hs := (sidePoints_getD_close 0 h 0 0 rand hr 38 j hj).2
      rw [show h + ((0 : ℚ) - h) / 6 * (j + 1) = h - h * (j + 1) / 6 from by ring] at hs
      exact hs
  · simpa [rippedStart] using abs_jagOffset (rand 0) (hr 0).1 (hr 0).2
  · simpa [rippedStart] using abs_jagOffset (rand 1) (hr 1).1 (hr 1).2

theorem rippedBanner_outline_witness :
    (rippedSides 100 60 halfDraws).length = 4 ∧
    ((rippedSides 100 60 halfDraws).getD 2 []).length = 6 ∧
    |(((rippedSides 100 60 halfDraws).getD 2 []).getD 3 (0, 0)).1 -
      (idealSideVertex 100 60 2 3).1| ≤ 4 ∧
    |(((rippedSides 100 60 halfDraws).getD 2 []).getD 3 (0, 0)).2 -
      (idealSideVertex 100 60 2 3).2| ≤ 4 ∧
    |(rippedStart halfDraws).1 - 0| ≤ 4 ∧
    |(rippedStart halfDraws).2 - 0| ≤ 4 :=
  rippedBanner_outline 100 60 halfDraws
    (fun _ => ⟨by norm_num [halfDraws], by norm_num [halfDraws]⟩)
    2 3 (by decide) (by decide)

set_option maxRecDepth 4000 in
theorem toHexByte_ok (c : ℤ) (h0 : 0 ≤ c) (h255 : c ≤ 255) :
    (toHexByte c).data.length = 2 ∧ (toHexByte c).data.all isLowerHexDigit = true := by
  have hm : c.toNat < 256 := by omega
  have key : ∀ m : ℕ, m < 256 →
      ((('0' :: Nat.toDigits 16 m).drop (('0' :: Nat.toDigits 16 m).length - 2)).length = 2 ∧
        (('0' :: Nat.toDigits 16 m).drop
          (('0' :: Nat.toDigits 16 m).length - 2)).all isLowerHexDigit = true) := by
    decide
  exact key c.toNat hm

theorem scaleChannel_bounds (c : ℕ) (f : ℚ) :
    0 ≤ scaleChannel c f ∧ scaleChannel c f ≤ 255 := by
  unfold scaleChannel
  exact ⟨le_min (by norm_num) (le_max_left 0 _), min_le_left _ _⟩

theorem isHexColorString_renderHex (x y z : ℤ)
    (hx0 : 0 ≤ x) (hx : x ≤ 255) (hy0 : 0 ≤ y) (hy : y ≤ 255)
    (hz0 : 0 ≤ z) (hz : z ≤ 255) :
    isHexColorString (renderHex x y z) = true := by
  obtain ⟨hxl, hxa⟩ := toHexByte_ok x hx0 hx
  obtain ⟨hyl, hya⟩ := toHexByte_ok y hy0 hy
  obtain ⟨hzl, hza⟩ := toHexByte_ok z hz0 hz
  have hdata : (renderHex x y z).data =
      '#' :: ((toHexByte x).data ++ (toHexByte y).data ++ (toHexByte z).data) := by
    simp [renderHex, String.data_append]
  simp [isHexColorString, hdata, hxl, hyl, hzl, List.all_append, hxa, hya, hza]

/-- C3: darken and lighten parse the (possibly '#'-prefixed, possibly
3-digit-shorthand) hex color, scale each channel by 1 - p/100
resp. 1 + p/100, clamp via min(255, max(0, floor(c * factor))), and
return '#' followed by exactly six lowercase hex digits, with every
channel in [0, 255] for every percent p. -/
theorem colorUtils_spec (hex : String) (p : ℚ) (r g b : ℕ)
    (hparse : parseHexColor hex = some (r, g, b)) :
    darken hex p =
      some (renderHex (scaleChannel r (1 - p / 100)) (scaleChannel g (1 - p / 100))
        (scaleChannel b (1 - p / 100))) ∧
    lighten hex p =
      some (renderHex (scaleChannel r (1 + p / 100)) (scaleChannel g (1 + p / 100))
        (scaleChannel b (1 + p / 100))) ∧
    scaleChannel r (1 - p / 100) = min 255 (max 0 ⌊(r : ℚ) * (1 - p / 100)⌋) ∧
    scaleChannel r (1 + p / 100) = min 255 (max 0 ⌊(r : ℚ) * (1 + p / 100)⌋) ∧
    (0 ≤ scaleChannel r (1 - p / 100) ∧ scaleChannel r (1 - p / 100) ≤ 255) ∧
    (0 ≤ scaleChannel r (1 + p / 100) ∧ scaleChannel r (1 + p / 100) ≤ 255) ∧
    isHexColorString (renderHex (scaleChannel r (1 - p / 100))
      (scaleChannel g (1 - p / 100)) (scaleChannel b (1 - p / 100))) = true ∧
    isHexColorString (renderHex (scaleChannel r (1 + p / 100))
      (scaleChannel g (1 + p / 100)) (scaleChannel b (1 + p / 100))) = true := by
  refine ⟨?_, ?_, rfl, rfl, scaleChannel_bounds r _, scaleChannel_bounds r _, ?_, ?_⟩
  · simp only [darken, hparse]
  · simp only [lighten, hparse]
  · exact isHexColorString_renderHex _ _ _ (scaleChannel_bounds r _).1
      (scaleChannel_bounds r _).2 (scaleChannel_bounds g _).1 (scaleChannel_bounds g _).2
      (scaleChannel_bounds b _).1 (scaleChannel_bounds b _).2
  · exact isHexColorString_renderHex _ _ _ (scaleChannel_bounds r _).1
      (scaleChannel_bounds r _).2 (scaleChannel_bounds g _).1 (scaleChannel_bounds g _).2
      (scaleChannel_bounds b _).1 (scaleChannel_bounds b _).2

theorem colorUtils_spec_witness :
    darken "#abc" 50 =
      some (renderHex (scaleChannel 170 (1 - 50 / 100)) (scaleChannel 187 (1 - 50 / 100))
        (scaleChannel 204 (1 - 50 / 100))) ∧
    lighten "#abc" 50 =
      some (renderHex (scaleChannel 170 (1 + 50 / 100)) (scaleChannel 187 (1 + 50 / 100))
        (scaleChannel 204 (1 + 50 / 100))) ∧
    scaleChannel 170 (1 - 50 / 100) = min 255 (max 0 ⌊(170 : ℚ) * (1 - 50 / 100)⌋) ∧
    scaleChannel 170 (1 + 50 / 100) = min 255 (max 0 ⌊(170 : ℚ) * (1 + 50 / 100)⌋) ∧
    (0 ≤ scaleChannel 170 (1 - 50 / 100) ∧ scaleChannel 170 (1 - 50 / 100) ≤ 255) ∧
    (0 ≤ scaleChannel 170 (1 + 50 / 100) ∧ scaleChannel 170 (1 + 50 / 100) ≤ 255) ∧
    isHexColorString (renderHex (scaleChannel 170 (1 - 50 / 100))
      (scaleChannel 187 (1 - 50 / 100)) (scaleChannel 204 (1 - 50 / 100))) = true ∧
    isHexColorString (renderHex (scaleChannel 170 (1 + 50 / 100))
      (scaleChannel 187 (1 + 50 / 100)) (scaleChannel 204 (1 + 50 / 100))) = true :=
  colorUtils_spec "#abc" 50 170 187 204 (by decide)

end Feeby
